import Mathlib

/-!
Verification of the video-streaming application data model and its
ingestion/transcoding state machine.

The repository source (src/stream/video/models.py, src/stream/users/models.py)
contains only Django schema declarations: enums, field defaults and table
constraints.  Those are embedded directly below (`Status`, `Visibility`,
`defaultStatus`, `defaultVisibility`, `newVideo`, the per-video uniqueness of
quality renditions and the (playlist, video) uniqueness of playlist entries).

The ingestion Coordinator itself (probe, transcode fan-out, progress
aggregation, finalization, resubmission) is not present in the repository;
the specification describes it as the component implied by the schema.  Its
transition system is therefore modelled from the specification's words as a
guarded step function `step` over the coordinator-visible state `VState`,
with `run` folding a trace of events from the freshly created row.
-/

namespace Streaming

/-- Status enum from src/stream/video/models.py lines 8-12: four wire-stable
string choices. -/
inductive Status where
  | uploading
  | processing
  | ready
  | failed
deriving DecidableEq, Repr

/-- The wire string of each status, from the TextChoices values
('uploading', 'processing', 'ready', 'failed'). -/
def Status.toWire : Status → String
  | .uploading => "uploading"
  | .processing => "processing"
  | .ready => "ready"
  | .failed => "failed"

/-- Visibility enum from src/stream/video/models.py lines 14-17:
'public', 'unlisted', 'private'. -/
inductive Visibility where
  | pub
  | unlisted
  | priv
deriving DecidableEq, Repr

/-- The wire string of each visibility choice. -/
def Visibility.toWire : Visibility → String
  | .pub => "public"
  | .unlisted => "unlisted"
  | .priv => "private"

/-- Schema default for Video.status (models.py line 74: default=Status.UPLOADING). -/
def defaultStatus : Status := Status.uploading

/-- Schema default for Video.visibility (models.py line 80: default=Visibility.PUBLIC). -/
def defaultVisibility : Visibility := Visibility.pub

/-- Modelled from the spec: one configured quality tier
`\x7blabel, width, height, bitrate, required\x7d` (spec section 6, quality tier
configuration).  The tier configuration is external input; it is carried by
the probe-success event because the Coordinator fans out one worker per
configured tier after the probe. -/
structure TierSpec where
  label : String
  width : Nat
  height : Nat
  bitrate : Nat
  required : Bool
deriving DecidableEq, Repr

/-- Modelled from the spec: the Coordinator's view of one tier task — its
configuration plus the latest percent-complete reported by its worker. -/
structure TierState where
  label : String
  bitrate : Nat
  required : Bool
  pct : Nat
deriving DecidableEq, Repr

/-- The coordinator-visible state of one Video row together with the
per-tier progress the Coordinator aggregates and the quality_name values of
its VideoQuality rows.  Fields mirror src/stream/video/models.py
(status, visibility, processing_progress, error_message, published_at,
duration, width, height, file_size); `generation` is the spec's attempt
generation counter, `tiers` the in-flight tier tasks, `qualities` the
(unique) quality_name values of the video's VideoQuality rows. -/
structure VState where
  status : Status
  visibility : Visibility
  processing_progress : Nat
  error_message : String
  published_at : Option Nat
  duration : Option Nat
  width : Option Nat
  height : Option Nat
  file_size : Option Nat
  generation : Nat
  tiers : List TierState
  qualities : List String
deriving DecidableEq, Repr

/-- A freshly created Video row, with the schema defaults of
src/stream/video/models.py: status=uploading, processing_progress=0,
error_message blank, published_at/duration/width/height/file_size null,
no VideoQuality rows.  Visibility is the supplied value (default public). -/
def newVideo (vis : Visibility) : VState :=
  { status := defaultStatus
    visibility := vis
    processing_progress := 0
    error_message := ""
    published_at := none
    duration := none
    width := none
    height := none
    file_size := none
    generation := 0
    tiers := []
    qualities := [] }

/-- Modelled from the spec: the events the Ingestion Coordinator reacts to
(spec sections 4.3 and 5): probe outcome on upload completion, worker
progress callbacks and completions fenced by attempt generation, the two
terminal decisions, and user resubmission of a failed video. -/
inductive Event where
  | probeOk (d w h fs : Nat) (cfg : List TierSpec)
  | probeFail (err : String)
  | tierProgress (gen i p : Nat)
  | tierComplete (gen i : Nat)
  | finalizeReady (gen now : Nat)
  | finalizeFailed (gen : Nat) (err : String)
  | resubmit
deriving DecidableEq, Repr

/-- Modelled from the spec: a tier task starts at 0 percent complete. -/
def initTier (t : TierSpec) : TierState :=
  { label := t.label, bitrate := t.bitrate, required := t.required, pct := 0 }

/-- Modelled from the spec: the aggregation weight of a tier is its relative
target bitrate times the video duration (spec section 4.3, progress
aggregation). -/
def tierWeight (d : Nat) (t : TierState) : Nat := t.bitrate * d

/-- Modelled from the spec: overall processing_progress is the weighted
average of per-tier percent-complete, weights `tierWeight` (spec section
4.3).  When the total weight is zero the aggregate is 0. -/
def aggregate (d : Nat) (ts : List TierState) : Nat :=
  if (ts.map (tierWeight d)).sum = 0 then 0
  else ((ts.map (fun t => tierWeight d t * t.pct)).sum) / (ts.map (tierWeight d)).sum

/-- Replace the percent-complete of the tier at index `i`. -/
def setTierPct (ts : List TierState) (i p : Nat) : List TierState :=
  match ts, i with
  | [], _ => []
  | t :: rest, 0 => { t with pct := p } :: rest
  | t :: rest, Nat.succ n => t :: setTierPct rest n p

/-- Modelled from the spec: all required tiers have produced their rendition
(spec section 4.3, processing to ready guard). -/
def requiredDone (s : VState) : Bool :=
  s.tiers.all (fun t => !t.required || s.qualities.contains t.label)

/-- The video duration used for progress weighting, 0 while unknown. -/
def durOf (s : VState) : Nat := s.duration.getD 0

/-- Modelled from the spec: the Ingestion Coordinator's guarded transition
function (spec section 4.3).  Probe success moves uploading to processing,
populates duration/width/height/file_size and fans out one zero-progress tier
task per configured tier; probe failure moves uploading directly to failed
with the probe error.  Worker callbacks are accepted only for the current
attempt generation while processing: a progress callback raises one tier's
percent-complete (worker percent-complete is non-decreasing) and recomputes
the weighted aggregate; a completion sets the tier to 100 and inserts its
VideoQuality row unless one already exists for that quality_name (the
(video, quality_name) unique constraint of models.py lines 162-167).
Finalization to ready requires all required tiers done and stamps
published_at only for non-private visibility; finalization to failed records
the error.  Resubmission of a failed video re-enters processing with
progress reset to 0, error_message cleared and a fresh attempt generation.
Events whose guard fails leave the state unchanged. -/
def step (s : VState) (e : Event) : VState :=
  match e with
  | .probeOk d w h fs cfg =>
      if s.status = Status.uploading then
        { s with status := Status.processing
                 duration := some d
                 width := some w
                 height := some h
                 file_size := some fs
                 tiers := cfg.map initTier
                 processing_progress := 0 }
      else s
  | .probeFail err =>
      if s.status = Status.uploading then
        { s with status := Status.failed, error_message := err }
      else s
  | .tierProgress gen i p =>
      if s.status = Status.processing ∧ gen = s.generation ∧ p ≤ 100 then
        match s.tiers.get? i with
        | some t =>
            if t.pct ≤ p then
              let ts := setTierPct s.tiers i p
              { s with tiers := ts, processing_progress := aggregate (durOf s) ts }
            else s
        | none => s
      else s
  | .tierComplete gen i =>
      if s.status = Status.processing ∧ gen = s.generation then
        match s.tiers.get? i with
        | some t =>
            let ts := setTierPct s.tiers i 100
            let qs := if t.label ∈ s.qualities then s.qualities
                      else t.label :: s.qualities
            { s with tiers := ts
                     processing_progress := aggregate (durOf s) ts
                     qualities := qs }
        | none => s
      else s
  | .finalizeReady gen now =>
      if s.status = Status.processing ∧ gen = s.generation ∧ requiredDone s = true then
        { s with status := Status.ready
                 published_at :=
                   if s.visibility = Visibility.priv then s.published_at
                   else some now }
      else s
  | .finalizeFailed gen err =>
      if s.status = Status.processing ∧ gen = s.generation then
        { s with status := Status.failed, error_message := err }
      else s
  | .resubmit =>
      if s.status = Status.failed then
        { s with status := Status.processing
                 generation := s.generation + 1
                 processing_progress := 0
                 error_message := ""
                 tiers := s.tiers.map (fun t => { t with pct := 0 }) }
      else s

/-- The state of a video created with visibility `vis` after a trace of
coordinator events. -/
def run (vis : Visibility) (es : List Event) : VState :=
  es.foldl step (newVideo vis)

end Streaming

namespace Streaming

/-- The claim's transition list: uploading to processing, processing to
ready or failed, failed back to processing — and nothing else. -/
def claimTransitions : Status → Status → Bool
  | .uploading, .processing => true
  | .processing, .ready => true
  | .processing, .failed => true
  | .failed, .processing => true
  | _, _ => false

/-- The coordinator's actual transition list: the claim's edges plus the
direct uploading-to-failed edge taken on probe failure. -/
def coordTransitions : Status → Status → Bool
  | .uploading, .processing => true
  | .uploading, .failed => true
  | .processing, .ready => true
  | .processing, .failed => true
  | .failed, .processing => true
  | _, _ => false

theorem visibility_step (s : VState) (e : Event) :
    (step s e).visibility = s.visibility := by
  cases e <;> simp only [step] <;> (repeat' split) <;> rfl

theorem generation_step (s : VState) (e : Event) :
    (step s e).generation = s.generation ∨
      (e = Event.resubmit ∧ (step s e).generation = s.generation + 1) := by
  cases e <;> simp only [step] <;> (repeat' split) <;> simp

theorem ready_absorbing (s : VState) (e : Event) (h : s.status = Status.ready) :
    step s e = s := by
  have h1 : ¬ s.status = Status.uploading := by simp [h]
  have h2 : ¬ s.status = Status.processing := by simp [h]
  have h3 : ¬ s.status = Status.failed := by simp [h]
  cases e <;> simp [step, h1, h2, h3]

end Streaming

namespace Streaming

/-- Every step either leaves the status unchanged or takes one of the
coordinator's edges. -/
theorem status_step (s : VState) (e : Event) :
    (step s e).status = s.status ∨
      coordTransitions s.status (step s e).status = true := by
  cases e <;> simp only [step] <;> (repeat' split) <;>
    simp_all [coordTransitions]

end Streaming

namespace Streaming

theorem setTierPct_map_weight (d : Nat) (ts : List TierState) (i p : Nat) :
    (setTierPct ts i p).map (tierWeight d) = ts.map (tierWeight d) := by
  induction ts generalizing i with
  | nil => simp [setTierPct]
  | cons t rest ih =>
    cases i with
    | zero => simp [setTierPct, tierWeight]
    | succ n => simp [setTierPct, ih]

theorem sum_pctprod_mono (d : Nat) (ts : List TierState) (i p : Nat) (t : TierState)
    (hget : ts.get? i = some t) (hle : t.pct ≤ p) :
    (ts.map (fun u => tierWeight d u * u.pct)).sum ≤
      ((setTierPct ts i p).map (fun u => tierWeight d u * u.pct)).sum := by
  induction ts generalizing i with
  | nil => simp [List.get?] at hget
  | cons u rest ih =>
    cases i with
    | zero =>
      simp only [List.get?] at hget
      injection hget with hut
      subst hut
      simp only [setTierPct, List.map_cons, List.sum_cons, tierWeight]
      exact Nat.add_le_add_right (Nat.mul_le_mul_left _ hle) _
    | succ n =>
      simp only [List.get?] at hget
      simp only [setTierPct, List.map_cons, List.sum_cons]
      exact Nat.add_le_add_left (ih n hget) _

theorem aggregate_mono (d : Nat) (ts : List TierState) (i p : Nat) (t : TierState)
    (hget : ts.get? i = some t) (hle : t.pct ≤ p) :
    aggregate d ts ≤ aggregate d (setTierPct ts i p) := by
  unfold aggregate
  rw [setTierPct_map_weight]
  by_cases hz : (ts.map (tierWeight d)).sum = 0
  · simp [hz]
  · rw [if_neg hz, if_neg hz]
    exact Nat.div_le_div_right (sum_pctprod_mono d ts i p t hget hle)

theorem sum_pctprod_le (d : Nat) (ts : List TierState)
    (h : ∀ t ∈ ts, t.pct ≤ 100) :
    (ts.map (fun u => tierWeight d u * u.pct)).sum ≤
      100 * (ts.map (tierWeight d)).sum := by
  induction ts with
  | nil => simp
  | cons u rest ih =>
    simp only [List.map_cons, List.sum_cons, Nat.mul_add]
    have h1 : tierWeight d u * u.pct ≤ 100 * tierWeight d u := by
      calc tierWeight d u * u.pct ≤ tierWeight d u * 100 :=
            Nat.mul_le_mul_left _ (h u (List.mem_cons_self _ _))
        _ = 100 * tierWeight d u := Nat.mul_comm _ _
    exact Nat.add_le_add h1 (ih fun t ht => h t (List.mem_cons_of_mem _ ht))

theorem aggregate_le_100 (d : Nat) (ts : List TierState)
    (h : ∀ t ∈ ts, t.pct ≤ 100) : aggregate d ts ≤ 100 := by
  unfold aggregate
  by_cases hz : (ts.map (tierWeight d)).sum = 0
  · simp [hz]
  · rw [if_neg hz]
    have h2 : (ts.map (fun u => tierWeight d u * u.pct)).sum /
          (ts.map (tierWeight d)).sum ≤
        100 * (ts.map (tierWeight d)).sum / (ts.map (tierWeight d)).sum :=
      Nat.div_le_div_right (sum_pctprod_le d ts h)
    rwa [Nat.mul_div_cancel 100 (Nat.pos_of_ne_zero hz)] at h2

theorem setTierPct_pct_le (ts : List TierState) (i p : Nat) (hp : p ≤ 100)
    (h : ∀ t ∈ ts, t.pct ≤ 100) : ∀ t ∈ setTierPct ts i p, t.pct ≤ 100 := by
  induction ts generalizing i with
  | nil => simp [setTierPct]
  | cons u rest ih =>
    cases i with
    | zero =>
      intro t ht
      simp only [setTierPct, List.mem_cons] at ht
      rcases ht with h1 | h2
      · subst h1; exact hp
      · exact h t (List.mem_cons_of_mem _ h2)
    | succ n =>
      intro t ht
      simp only [setTierPct, List.mem_cons] at ht
      rcases ht with h1 | h2
      · subst h1; exact h _ (List.mem_cons_self _ _)
      · exact ih n (fun v hv => h v (List.mem_cons_of_mem _ hv)) t h2

theorem aggregate_pct_zero (d : Nat) (ts : List TierState)
    (h : ∀ t ∈ ts, t.pct = 0) : aggregate d ts = 0 := by
  have hz : (ts.map (fun u => tierWeight d u * u.pct)).sum = 0 := by
    induction ts with
    | nil => simp
    | cons u rest ih =>
      simp only [List.map_cons, List.sum_cons]
      rw [h u (List.mem_cons_self _ _), Nat.mul_zero, Nat.zero_add]
      exact ih fun t ht => h t (List.mem_cons_of_mem _ ht)
  unfold aggregate
  by_cases hw : (ts.map (tierWeight d)).sum = 0
  · simp [hw]
  · rw [if_neg hw, hz, Nat.zero_div]

end Streaming

namespace Streaming

/-- The invariant maintained by the Coordinator on every reachable state:
per-tier percent-complete stays within 100, processing_progress is exactly
the weighted aggregate of the tier percents, quality_name values are unique
per video, published_at is null outside `ready` and for private videos, and
a still-uploading video has no progress, renditions or tier tasks. -/
def Inv (s : VState) : Prop :=
  (∀ t ∈ s.tiers, t.pct ≤ 100) ∧
  s.processing_progress = aggregate (durOf s) s.tiers ∧
  s.qualities.Nodup ∧
  (s.status ≠ Status.ready → s.published_at = none) ∧
  (s.visibility = Visibility.priv → s.published_at = none) ∧
  (s.status = Status.uploading →
    s.processing_progress = 0 ∧ s.qualities = [] ∧ s.tiers = [])

theorem Inv_newVideo (vis : Visibility) : Inv (newVideo vis) := by
  refine ⟨?_, ?_, ?_, ?_, ?_, ?_⟩ <;> simp [newVideo, aggregate, durOf]

theorem Inv_step (s : VState) (e : Event) (h : Inv s) : Inv (step s e) := by
  obtain ⟨hA, hG, hC, hD, hE, hF⟩ := h
  cases e with
  | probeOk d w hh fs cfg =>
    by_cases hs : s.status = Status.uploading
    · obtain ⟨hp0, hq0, ht0⟩ := hF hs
      simp only [step, hs, if_true]
      refine ⟨?_, ?_, ?_, ?_, ?_, ?_⟩
      · intro t ht
        simp only [List.mem_map] at ht
        obtain ⟨c, _, rfl⟩ := ht
        simp [initTier]
      · have : aggregate d (cfg.map initTier) = 0 := by
          apply aggregate_pct_zero
          intro t ht
          simp only [List.mem_map] at ht
          obtain ⟨c, _, rfl⟩ := ht
          simp [initTier]
        simp [durOf, this]
      · exact hC
      · intro _; exact hD (by simp [hs])
      · intro hv; exact hE hv
      · intro hcon; simp at hcon
    · simp only [step, hs, if_false]
      exact ⟨hA, hG, hC, hD, hE, hF⟩
  | probeFail err =>
    by_cases hs : s.status = Status.uploading
    · simp only [step, hs, if_true]
      refine ⟨hA, hG, hC, ?_, ?_, ?_⟩
      · intro _; exact hD (by simp [hs])
      · intro hv; exact hE hv
      · intro hcon; simp at hcon
    · simp only [step, hs, if_false]
      exact ⟨hA, hG, hC, hD, hE, hF⟩
  | tierProgress gen i p =>
    by_cases hg : s.status = Status.processing ∧ gen = s.generation ∧ p ≤ 100
    · simp only [step, if_pos hg]
      rcases hO : s.tiers.get? i with _ | t
      · exact ⟨hA, hG, hC, hD, hE, hF⟩
      · by_cases hp : t.pct ≤ p
        · simp only [if_pos hp]
          refine ⟨?_, ?_, ?_, ?_, ?_, ?_⟩
          · exact setTierPct_pct_le s.tiers i p hg.2.2 hA
          · simp [durOf]
          · exact hC
          · intro _; exact hD (by simp [hg.1])
          · intro hv; exact hE hv
          · intro hcon; rw [hg.1] at hcon; simp at hcon
        · simp only [if_neg hp]
          exact ⟨hA, hG, hC, hD, hE, hF⟩
    · simp only [step, if_neg hg]
      exact ⟨hA, hG, hC, hD, hE, hF⟩
  | tierComplete gen i =>
    by_cases hg : s.status = Status.processing ∧ gen = s.generation
    · simp only [step, if_pos hg]
      rcases hO : s.tiers.get? i with _ | t
      · exact ⟨hA, hG, hC, hD, hE, hF⟩
      · refine ⟨?_, ?_, ?_, ?_, ?_, ?_⟩
        · exact setTierPct_pct_le s.tiers i 100 (Nat.le_refl 100) hA
        · simp [durOf]
        · by_cases hm : t.label ∈ s.qualities
          · simp only [if_pos hm]; exact hC
          · simp only [if_neg hm]
            exact List.nodup_cons.mpr ⟨hm, hC⟩
        · intro _; exact hD (by simp [hg.1])
        · intro hv; exact hE hv
        · intro hcon; rw [hg.1] at hcon; simp at hcon
    · simp only [step, if_neg hg]
      exact ⟨hA, hG, hC, hD, hE, hF⟩
  | finalizeReady gen now =>
    by_cases hg : s.status = Status.processing ∧ gen = s.generation ∧
        requiredDone s = true
    · simp only [step, if_pos hg]
      refine ⟨hA, hG, hC, ?_, ?_, ?_⟩
      · intro hne; simp at hne
      · intro hv
        simp only [if_pos hv]
        exact hE hv
      · intro hcon; simp at hcon
    · simp only [step, if_neg hg]
      exact ⟨hA, hG, hC, hD, hE, hF⟩
  | finalizeFailed gen err =>
    by_cases hg : s.status = Status.processing ∧ gen = s.generation
    · simp only [step, if_pos hg]
      refine ⟨hA, hG, hC, ?_, ?_, ?_⟩
      · intro _; exact hD (by simp [hg.1])
      · intro hv; exact hE hv
      · intro hcon; simp at hcon
    · simp only [step, if_neg hg]
      exact ⟨hA, hG, hC, hD, hE, hF⟩
  | resubmit =>
    by_cases hs : s.status = Status.failed
    · simp only [step, hs, if_true]
      refine ⟨?_, ?_, ?_, ?_, ?_, ?_⟩
      · intro t ht
        simp only [List.mem_map] at ht
        obtain ⟨u, _, rfl⟩ := ht
        simp
      · have : aggregate (durOf s)
            (s.tiers.map (fun t => { t with pct := 0 })) = 0 := by
          apply aggregate_pct_zero
          intro t ht
          simp only [List.mem_map] at ht
          obtain ⟨u, _, rfl⟩ := ht
          rfl
        simp [durOf] at this ⊢
        exact this.symm ▸ rfl
      · exact hC
      · intro _; exact hD (by simp [hs])
      · intro hv; exact hE hv
      · intro hcon; simp at hcon
    · simp only [step, hs, if_false]
      exact ⟨hA, hG, hC, hD, hE, hF⟩

theorem Inv_foldl (es : List Event) (s : VState) (h : Inv s) :
    Inv (es.foldl step s) := by
  induction es generalizing s with
  | nil => exact h
  | cons e rest ih => exact ih _ (Inv_step s e h)

theorem Inv_run (vis : Visibility) (es : List Event) : Inv (run vis es) :=
  Inv_foldl es _ (Inv_newVideo vis)

end Streaming

namespace Streaming

/-- Across one coordinator step from an invariant-satisfying state, the
stored processing_progress never decreases, except that resubmission
resets it to 0. -/
theorem step_progress_mono (s : VState) (e : Event) (h : Inv s) :
    s.processing_progress ≤ (step s e).processing_progress ∨
      (e = Event.resubmit ∧ (step s e).processing_progress = 0) := by
  obtain ⟨hA, hG, hC, hD, hE, hF⟩ := h
  cases e with
  | probeOk d w hh fs cfg =>
    by_cases hs : s.status = Status.uploading
    · left
      simp only [step, hs, if_true]
      rw [(hF hs).1]
    · left; simp only [step, hs, if_false]; exact Nat.le_refl _
  | probeFail err =>
    left
    by_cases hs : s.status = Status.uploading <;>
      simp [step, hs]
  | tierProgress gen i p =>
    left
    by_cases hg : s.status = Status.processing ∧ gen = s.generation ∧ p ≤ 100
    · simp only [step, if_pos hg]
      rcases hO : s.tiers.get? i with _ | t
      · exact Nat.le_refl _
      · by_cases hp : t.pct ≤ p
        · simp only [if_pos hp]
          rw [hG]
          exact aggregate_mono (durOf s) s.tiers i p t hO hp
        · simp only [if_neg hp]; exact Nat.le_refl _
    · simp only [step, if_neg hg]; exact Nat.le_refl _
  | tierComplete gen i =>
    left
    by_cases hg : s.status = Status.processing ∧ gen = s.generation
    · simp only [step, if_pos hg]
      rcases hO : s.tiers.get? i with _ | t
      · exact Nat.le_refl _
      · rw [hG]
        exact aggregate_mono (durOf s) s.tiers i 100 t hO
          (hA t (List.get?_mem hO))
    · simp only [step, if_neg hg]; exact Nat.le_refl _
  | finalizeReady gen now =>
    left
    by_cases hg : s.status = Status.processing ∧ gen = s.generation ∧
        requiredDone s = true <;>
      simp [step, hg]
  | finalizeFailed gen err =>
    left
    by_cases hg : s.status = Status.processing ∧ gen = s.generation <;>
      simp [step, hg]
  | resubmit =>
    by_cases hs : s.status = Status.failed
    · right
      exact ⟨rfl, by simp [step, hs]⟩
    · left; simp [step, hs]

/-- A resubmission event is ignored unless the video is in `failed`. -/
theorem resubmit_noop (s : VState) (h : s.status ≠ Status.failed) :
    step s Event.resubmit = s := by
  simp [step, h]

end Streaming

namespace Streaming

/-- PlaylistVideo row from src/stream/video/models.py lines 266-287, within
one fixed playlist: the video foreign key and the position. -/
structure PlaylistVideo where
  video : Nat
  order : Nat
deriving DecidableEq, Repr

/-- Insertion of a video into one playlist's rows, honoring the
unique_together ['playlist', 'video'] constraint of models.py line 287:
an insert whose (playlist, video) pair already exists is rejected and the
rows are unchanged. -/
def addToPlaylist (rows : List PlaylistVideo) (v ord : Nat) :
    List PlaylistVideo :=
  if v ∈ rows.map PlaylistVideo.video then rows
  else rows ++ [{ video := v, order := ord }]

/-- The rows of one playlist after a sequence of (video, order) insertions
starting from the empty playlist. -/
def playlistRun (ops : List (Nat × Nat)) : List PlaylistVideo :=
  ops.foldl (fun rows op => addToPlaylist rows op.1 op.2) []

theorem addToPlaylist_nodup (rows : List PlaylistVideo) (v ord : Nat)
    (h : (rows.map PlaylistVideo.video).Nodup) :
    ((addToPlaylist rows v ord).map PlaylistVideo.video).Nodup := by
  unfold addToPlaylist
  by_cases hm : v ∈ rows.map PlaylistVideo.video
  · rw [if_pos hm]; exact h
  · rw [if_neg hm]
    simp only [List.map_append, List.map_cons, List.map_nil]
    rw [List.nodup_append]
    refine ⟨h, List.nodup_singleton v, ?_⟩
    intro a ha hav
    simp only [List.mem_singleton] at hav
    subst hav
    exact hm ha

theorem playlistFold_nodup (ops : List (Nat × Nat)) (rows : List PlaylistVideo)
    (h : (rows.map PlaylistVideo.video).Nodup) :
    ((ops.foldl (fun rows op => addToPlaylist rows op.1 op.2) rows).map
        PlaylistVideo.video).Nodup := by
  induction ops generalizing rows with
  | nil => exact h
  | cons op rest ih => exact ih _ (addToPlaylist_nodup rows op.1 op.2 h)

end Streaming

namespace Streaming

/-- C1 counterexample: the coordinator takes the direct status transition
uploading → failed when the probe fails on a freshly created video — a
status change, and one that is not in the claim's transition list. -/
theorem c1_status_transitions_counterexample :
    (step (newVideo defaultVisibility) (Event.probeFail "corrupt")).status ≠
        (newVideo defaultVisibility).status ∧
      claimTransitions (newVideo defaultVisibility).status
        (step (newVideo defaultVisibility) (Event.probeFail "corrupt")).status
        = false := by
  decide

/-- C1 (amended): every coordinator step either leaves the status unchanged
or takes one of the transitions uploading → processing, uploading → failed
(probe failure), processing → ready, processing → failed, or
failed → processing (resubmission) — no other status transition is ever
taken; and resubmitting a failed video re-enters processing with
processing_progress reset to 0 and error_message cleared. -/
theorem c1_status_transitions (s : VState) (e : Event) :
    ((step s e).status = s.status ∨
        coordTransitions s.status (step s e).status = true) ∧
      (s.status = Status.failed →
        (step s Event.resubmit).status = Status.processing ∧
          (step s Event.resubmit).processing_progress = 0 ∧
          (step s Event.resubmit).error_message = "") := by
  refine ⟨status_step s e, fun hf => ?_⟩
  simp [step, hf]

/-- C1 witness: concrete instance of the amended claim — a tier-progress
step out of processing keeps the status, and resubmitting a concrete failed
video re-enters processing with progress 0 and a cleared error. -/
theorem c1_status_transitions_witness :
    ((step (run defaultVisibility
          [Event.probeOk 5 640 360 1000 [TierSpec.mk "480p" 854 480 1000 true],
           Event.probeFail "x", Event.finalizeFailed 0 "boom"])
        (Event.tierProgress 0 0 10)).status =
        (run defaultVisibility
          [Event.probeOk 5 640 360 1000 [TierSpec.mk "480p" 854 480 1000 true],
           Event.probeFail "x", Event.finalizeFailed 0 "boom"]).status ∨
      coordTransitions
        (run defaultVisibility
          [Event.probeOk 5 640 360 1000 [TierSpec.mk "480p" 854 480 1000 true],
           Event.probeFail "x", Event.finalizeFailed 0 "boom"]).status
        (step (run defaultVisibility
          [Event.probeOk 5 640 360 1000 [TierSpec.mk "480p" 854 480 1000 true],
           Event.probeFail "x", Event.finalizeFailed 0 "boom"])
          (Event.tierProgress 0 0 10)).status = true) ∧
      ((step (run defaultVisibility
          [Event.probeOk 5 640 360 1000 [TierSpec.mk "480p" 854 480 1000 true],
           Event.probeFail "x", Event.finalizeFailed 0 "boom"])
        Event.resubmit).status = Status.processing ∧
        (step (run defaultVisibility
          [Event.probeOk 5 640 360 1000 [TierSpec.mk "480p" 854 480 1000 true],
           Event.probeFail "x", Event.finalizeFailed 0 "boom"])
          Event.resubmit).processing_progress = 0 ∧
        (step (run defaultVisibility
          [Event.probeOk 5 640 360 1000 [TierSpec.mk "480p" 854 480 1000 true],
           Event.probeFail "x", Event.finalizeFailed 0 "boom"])
          Event.resubmit).error_message = "") :=
  ⟨(c1_status_transitions
      (run defaultVisibility
        [Event.probeOk 5 640 360 1000 [TierSpec.mk "480p" 854 480 1000 true],
         Event.probeFail "x", Event.finalizeFailed 0 "boom"])
      (Event.tierProgress 0 0 10)).1,
   (c1_status_transitions
      (run defaultVisibility
        [Event.probeOk 5 640 360 1000 [TierSpec.mk "480p" 854 480 1000 true],
         Event.probeFail "x", Event.finalizeFailed 0 "boom"])
      (Event.tierProgress 0 0 10)).2 (by decide)⟩

end Streaming

namespace Streaming

/-- C2: on every reachable Video state, a set published_at implies status
ready and non-private visibility (so it is never set while uploading,
processing or failed, and a private video never has it set); and once set,
no further coordinator event ever changes it — so it is set at most once,
on the transition into ready. -/
theorem c2_published_at (vis : Visibility) (es : List Event) (e : Event)
    (t : Nat) :
    ((run vis es).published_at.isSome = true →
        (run vis es).status = Status.ready ∧
          (run vis es).visibility ≠ Visibility.priv) ∧
      ((run vis es).published_at = some t →
        (step (run vis es) e).published_at = some t) := by
  obtain ⟨hA, hG, hC, hD, hE, hF⟩ := Inv_run vis es
  constructor
  · intro hsome
    constructor
    · by_contra hne
      rw [hD hne] at hsome
      simp at hsome
    · intro hv
      rw [hE hv] at hsome
      simp at hsome
  · intro ht
    have hready : (run vis es).status = Status.ready := by
      by_contra hne
      rw [hD hne] at ht
      exact Option.noConfusion ht
    rw [ready_absorbing _ e hready]
    exact ht

/-- C2 witness: a public video that finished its only required tier and was
finalized at time 42 is ready with non-private visibility, and a further
event (a resubmission attempt) leaves published_at = 42. -/
theorem c2_published_at_witness :
    ((run defaultVisibility
        [Event.probeOk 5 640 360 1000 [TierSpec.mk "480p" 854 480 1000 true],
         Event.tierComplete 0 0, Event.finalizeReady 0 42]).status =
          Status.ready ∧
      (run defaultVisibility
        [Event.probeOk 5 640 360 1000 [TierSpec.mk "480p" 854 480 1000 true],
         Event.tierComplete 0 0, Event.finalizeReady 0 42]).visibility ≠
          Visibility.priv) ∧
      (step (run defaultVisibility
        [Event.probeOk 5 640 360 1000 [TierSpec.mk "480p" 854 480 1000 true],
         Event.tierComplete 0 0, Event.finalizeReady 0 42])
        Event.resubmit).published_at = some 42 :=
  ⟨(c2_published_at defaultVisibility
      [Event.probeOk 5 640 360 1000 [TierSpec.mk "480p" 854 480 1000 true],
       Event.tierComplete 0 0, Event.finalizeReady 0 42]
      Event.resubmit 42).1 (by decide),
   (c2_published_at defaultVisibility
      [Event.probeOk 5 640 360 1000 [TierSpec.mk "480p" 854 480 1000 true],
       Event.tierComplete 0 0, Event.finalizeReady 0 42]
      Event.resubmit 42).2 (by decide)⟩

/-- C3: on every reachable state that is processing and stays processing
within the same attempt generation, processing_progress does not decrease
across the step; and any decrease at all can only come from the resubmit
event applied to a failed video, which resets progress to 0. -/
theorem c3_progress_monotone (vis : Visibility) (es : List Event)
    (e : Event) :
    ((run vis es).status = Status.processing →
        (step (run vis es) e).status = Status.processing →
        (step (run vis es) e).generation = (run vis es).generation →
        (run vis es).processing_progress ≤
          (step (run vis es) e).processing_progress) ∧
      ((step (run vis es) e).processing_progress <
          (run vis es).processing_progress →
        e = Event.resubmit ∧
          (step (run vis es) e).processing_progress = 0 ∧
          (run vis es).status = Status.failed) := by
  rcases step_progress_mono (run vis es) e (Inv_run vis es) with hle | ⟨he, h0⟩
  · constructor
    · intro _ _ _; exact hle
    · intro hlt; exact absurd hlt (Nat.not_lt.mpr hle)
  · subst he
    constructor
    · intro hp _ _
      have hnf : (run vis es).status ≠ Status.failed := by
        rw [hp]; exact fun hcon => Status.noConfusion hcon
      rw [resubmit_noop _ hnf]
    · intro hlt
      refine ⟨rfl, h0, ?_⟩
      by_contra hnf
      rw [resubmit_noop _ hnf] at hlt
      exact absurd hlt (Nat.lt_irrefl _)

/-- C3 witness: a concrete processing video at 50 percent moves to 80
percent on a same-generation progress callback; and a concrete failed video
at progress 50 drops to 0 exactly on resubmission. -/
theorem c3_progress_monotone_witness :
    (run defaultVisibility
        [Event.probeOk 5 640 360 1000 [TierSpec.mk "480p" 854 480 1000 true],
         Event.tierProgress 0 0 50]).processing_progress ≤
      (step (run defaultVisibility
        [Event.probeOk 5 640 360 1000 [TierSpec.mk "480p" 854 480 1000 true],
         Event.tierProgress 0 0 50])
        (Event.tierProgress 0 0 80)).processing_progress ∧
      (Event.resubmit = Event.resubmit ∧
        (step (run defaultVisibility
          [Event.probeOk 5 640 360 1000 [TierSpec.mk "480p" 854 480 1000 true],
           Event.tierProgress 0 0 50, Event.finalizeFailed 0 "boom"])
          Event.resubmit).processing_progress = 0 ∧
        (run defaultVisibility
          [Event.probeOk 5 640 360 1000 [TierSpec.mk "480p" 854 480 1000 true],
           Event.tierProgress 0 0 50, Event.finalizeFailed 0 "boom"]).status =
          Status.failed) :=
  ⟨(c3_progress_monotone defaultVisibility
      [Event.probeOk 5 640 360 1000 [TierSpec.mk "480p" 854 480 1000 true],
       Event.tierProgress 0 0 50]
      (Event.tierProgress 0 0 80)).1 (by decide) (by decide) (by decide),
   (c3_progress_monotone defaultVisibility
      [Event.probeOk 5 640 360 1000 [TierSpec.mk "480p" 854 480 1000 true],
       Event.tierProgress 0 0 50, Event.finalizeFailed 0 "boom"]
      Event.resubmit).2 (by decide)⟩

end Streaming

namespace Streaming

/-- C4: on every reachable Video state the quality_name values of its
VideoQuality rows are pairwise distinct — at most one rendition per tier —
whatever interleaving of worker completions (including retried duplicates
for the same tier) produced it. -/
theorem c4_quality_unique (vis : Visibility) (es : List Event) :
    (run vis es).qualities.Nodup :=
  (Inv_run vis es).2.2.1

/-- C4 witness: two completions of the same tier (a retried worker) leave a
single "480p" rendition row. -/
theorem c4_quality_unique_witness :
    (run defaultVisibility
      [Event.probeOk 5 640 360 1000 [TierSpec.mk "480p" 854 480 1000 true],
       Event.tierComplete 0 0, Event.tierComplete 0 0]).qualities = ["480p"] ∧
      (run defaultVisibility
        [Event.probeOk 5 640 360 1000 [TierSpec.mk "480p" 854 480 1000 true],
         Event.tierComplete 0 0, Event.tierComplete 0 0]).qualities.Nodup :=
  ⟨by decide,
   c4_quality_unique defaultVisibility
     [Event.probeOk 5 640 360 1000 [TierSpec.mk "480p" 854 480 1000 true],
      Event.tierComplete 0 0, Event.tierComplete 0 0]⟩

/-- C5: finalization is idempotent — once a finalize-ready event has put a
video into ready, delivering the "all required tiers complete" event again
leaves the entire state unchanged: published_at is not re-stamped and no
further change (and no error) occurs. -/
theorem c5_finalize_idempotent (s : VState) (g t g2 t2 : Nat)
    (h : (step s (Event.finalizeReady g t)).status = Status.ready) :
    step (step s (Event.finalizeReady g t)) (Event.finalizeReady g2 t2) =
      step s (Event.finalizeReady g t) :=
  ready_absorbing _ _ h

/-- C5 witness: a concrete video finalized at time 7 is unchanged by a
duplicate finalize-ready event at time 9. -/
theorem c5_finalize_idempotent_witness :
    step (step (run defaultVisibility
        [Event.probeOk 5 640 360 1000 [TierSpec.mk "480p" 854 480 1000 true],
         Event.tierComplete 0 0])
        (Event.finalizeReady 0 7)) (Event.finalizeReady 0 9) =
      step (run defaultVisibility
        [Event.probeOk 5 640 360 1000 [TierSpec.mk "480p" 854 480 1000 true],
         Event.tierComplete 0 0])
        (Event.finalizeReady 0 7) :=
  c5_finalize_idempotent
    (run defaultVisibility
      [Event.probeOk 5 640 360 1000 [TierSpec.mk "480p" 854 480 1000 true],
       Event.tierComplete 0 0])
    0 7 0 9 (by decide)

/-- C6: when the probe fails on a reachable video that is still uploading,
the video transitions directly to failed (no intermediate processing step),
error_message carries the probe error, no VideoQuality rows exist and
processing_progress stays 0. -/
theorem c6_probe_failure (vis : Visibility) (es : List Event) (err : String)
    (h : (run vis es).status = Status.uploading) :
    (step (run vis es) (Event.probeFail err)).status = Status.failed ∧
      (step (run vis es) (Event.probeFail err)).error_message = err ∧
      (step (run vis es) (Event.probeFail err)).qualities = [] ∧
      (step (run vis es) (Event.probeFail err)).processing_progress = 0 := by
  obtain ⟨hA, hG, hC, hD, hE, hF⟩ := Inv_run vis es
  obtain ⟨hp0, hq0, ht0⟩ := hF h
  simp [step, h, hp0, hq0]

/-- C6 witness: a corrupt file on a freshly created video fails it directly
with the probe error, no renditions and zero progress. -/
theorem c6_probe_failure_witness :
    (step (run defaultVisibility [])
        (Event.probeFail "corrupt container")).status = Status.failed ∧
      (step (run defaultVisibility [])
        (Event.probeFail "corrupt container")).error_message =
        "corrupt container" ∧
      (step (run defaultVisibility [])
        (Event.probeFail "corrupt container")).qualities = [] ∧
      (step (run defaultVisibility [])
        (Event.probeFail "corrupt container")).processing_progress = 0 :=
  c6_probe_failure defaultVisibility [] "corrupt container" (by decide)

/-- C7: on every reachable Video state processing_progress is a natural
number at most 100 (hence in 0..100), and it remains so after any further
coordinator operation that writes it. -/
theorem c7_progress_bounded (vis : Visibility) (es : List Event) (e : Event) :
    (run vis es).processing_progress ≤ 100 ∧
      (step (run vis es) e).processing_progress ≤ 100 := by
  constructor
  · have h := Inv_run vis es
    rw [h.2.1]
    exact aggregate_le_100 _ _ h.1
  · have h := Inv_step _ e (Inv_run vis es)
    rw [h.2.1]
    exact aggregate_le_100 _ _ h.1

/-- C8: a Video status is always one of exactly the four wire-stable
strings uploading/processing/ready/failed, and a newly created Video has
status uploading. -/
theorem c8_status_wire (vis : Visibility) :
    (∀ st : Status, st = Status.uploading ∨ st = Status.processing ∨
        st = Status.ready ∨ st = Status.failed) ∧
      Status.uploading.toWire = "uploading" ∧
      Status.processing.toWire = "processing" ∧
      Status.ready.toWire = "ready" ∧
      Status.failed.toWire = "failed" ∧
      (newVideo vis).status = Status.uploading := by
  refine ⟨fun st => ?_, rfl, rfl, rfl, rfl, rfl⟩
  cases st <;> simp

/-- C9: a newly created Video with no supplied visibility defaults to
public (the schema default, not private or unlisted), and by default such a
video reaching ready has published_at stamped. -/
theorem c9_default_visibility :
    defaultVisibility = Visibility.pub ∧
      (newVideo defaultVisibility).visibility = Visibility.pub ∧
      Visibility.pub.toWire = "public" ∧
      (run defaultVisibility
          [Event.probeOk 5 640 360 1000 [TierSpec.mk "480p" 854 480 1000 true],
           Event.tierComplete 0 0,
           Event.finalizeReady 0 42]).published_at = some 42 :=
  ⟨rfl, rfl, rfl, by decide⟩

/-- C10: within a playlist a given video appears at most once: the video
keys of the PlaylistVideo rows are pairwise distinct after any sequence of
insertions, each insertion honoring the (playlist, video) unique
constraint. -/
theorem c10_playlist_video_unique (ops : List (Nat × Nat)) :
    ((playlistRun ops).map PlaylistVideo.video).Nodup :=
  playlistFold_nodup ops [] (by simp)

/-- C10 witness: inserting video 1 twice and video 2 once yields rows for
videos 1 and 2 only, with distinct video keys. -/
theorem c10_playlist_video_unique_witness :
    (playlistRun [(1, 0), (1, 1), (2, 2)]).map PlaylistVideo.video = [1, 2] ∧
      ((playlistRun [(1, 0), (1, 1), (2, 2)]).map PlaylistVideo.video).Nodup :=
  ⟨by decide, c10_playlist_video_unique [(1, 0), (1, 1), (2, 2)]⟩

end Streaming
